import Mathlib

/-!
Shallow embedding of the kanMind backend core (boards, tasks, comments,
authorization) from `boards_app/models.py`, `boards_app/api/views.py`,
`boards_app/api/serializers.py` and `boards_app/api/permissions.py`.

Users are represented by their numeric ids; the board member relation
(a Django ManyToManyField, hence duplicate-free) is a duplicate-free list
of user ids; persistent state is a record of users, boards, tasks and
comments together with id counters and a clock supplying `created_at`
values.
-/

deriving instance DecidableEq for Except

namespace KanMind

/-- Error kinds surfaced by the API layer, one per distinct failure response
in the source: `notFound` (404), `notAuthorized` (403, PermissionDenied),
`validationFailed` (400 on malformed/missing fields), `invalidOperation`
(the distinct 400 returned for removing the board owner),
`valueError` (the unhandled Python ValueError raised when an integer is
assigned to the `Task.board` foreign-key descriptor) and `attributeError`
(the unhandled Python AttributeError raised when an attribute lookup on a
module fails). -/
inductive Err where
  | notFound
  | notAuthorized
  | validationFailed
  | invalidOperation
  | valueError
  | attributeError
  deriving DecidableEq, Repr

/-- `Board` from `boards_app/models.py`: title, owner foreign key, member
set (ManyToManyField, stored here as a duplicate-free list of user ids). -/
structure Board where
  id : Nat
  title : String
  ownerId : Nat
  memberIds : List Nat
  deriving DecidableEq, Repr

/-- `Task` from `boards_app/models.py`: belongs to one board, has title,
status, priority and optional assignee/reviewer foreign keys. -/
structure Task where
  id : Nat
  boardId : Nat
  title : String
  status : String
  priority : String
  assigneeId : Option Nat
  reviewerId : Option Nat
  deriving DecidableEq, Repr

/-- `Comment` from `boards_app/models.py`: belongs to one task, has an
author foreign key, content and a creation timestamp. -/
structure Comment where
  id : Nat
  taskId : Nat
  authorId : Nat
  content : String
  createdAt : Nat
  deriving DecidableEq, Repr

/-- The persistent store: registered user ids, boards, tasks, comments,
fresh-id counters for tasks and comments, and a clock used for
`created_at` (auto_now_add). -/
structure KState where
  users : List Nat
  boards : List Board
  tasks : List Task
  comments : List Comment
  nextTaskId : Nat
  nextCommentId : Nat
  now : Nat
  deriving DecidableEq, Repr

/-- `Board.objects.get(id=board_id)` — lookup of a board by id. -/
def findBoard (st : KState) (bid : Nat) : Option Board :=
  st.boards.find? (fun b => b.id == bid)

/-- `Task.objects.get(id=task_id)` — lookup of a task by id. -/
def findTask (st : KState) (tid : Nat) : Option Task :=
  st.tasks.find? (fun t => t.id == tid)

/-- `IsBoardOwnerOrMember.has_object_permission` from
`boards_app/api/permissions.py` line 21:
`obj.owner == request.user or request.user in obj.members.all()`.
This is the permission class installed on `BoardViewSet`
(`permission_classes = [IsBoardOwnerOrMember]`), used for reads and
writes alike. -/
def ownerOrMember (u : Nat) (b : Board) : Bool :=
  b.ownerId == u || b.memberIds.contains u

/-- `BoardViewSet.get_object` from `boards_app/api/views.py` lines 87-103:
fetch the board by id (404 if absent), then run
`check_object_permissions`, which raises PermissionDenied (403) unless
`IsBoardOwnerOrMember.has_object_permission` holds. -/
def boardGetObject (st : KState) (u bid : Nat) : Except Err Board :=
  match findBoard st bid with
  | none => .error .notFound
  | some b => if ownerOrMember u b then .ok b else .error .notAuthorized

/-- Replace the stored board carrying the id of `b` by `b`
(the effect of `instance.save()` / m2m writes on one board row). -/
def updateBoardIn (st : KState) (b : Board) : KState :=
  { st with boards := st.boards.map (fun x => if x.id == b.id then b else x) }

/-- A PATCH body for `BoardViewSet.partial_update`: optional `title`,
optional `members` list of user ids (`BoardUpdateSerializer` fields). -/
structure BoardPatch where
  title : Option String
  members : Option (List Nat)
  deriving DecidableEq, Repr

/-- `BoardViewSet.partial_update` from `boards_app/api/views.py` lines
110-125: `get_object` (existence then permission), then
`BoardUpdateSerializer(instance, data, partial=True)` validation
(`PrimaryKeyRelatedField` requires every supplied member id to resolve to
an existing user), then `serializer.save()`. `BoardUpdateSerializer`
declares no custom `update`, so DRF ModelSerializer.update applies:
scalar fields are assigned and saved, and the many-to-many `members`
field is written with `instance.members.set(value)` — the owner is NOT
re-added on this path (contrast `BoardSerializer.update`, which follows
`set` with `add(owner)`). `eraseDups` reflects that the m2m join table
keeps one row per user. -/
def boardPartialUpdate (st : KState) (u bid : Nat) (p : BoardPatch) :
    Except Err KState :=
  match boardGetObject st u bid with
  | .error e => .error e
  | .ok b =>
    match p.members with
    | none => .ok (updateBoardIn st { b with title := p.title.getD b.title })
    | some ms =>
      if ms.all (fun m => st.users.contains m) then
        .ok (updateBoardIn st
          { b with title := p.title.getD b.title, memberIds := ms.eraseDups })
      else .error .validationFailed

/-- `BoardViewSet.add_member` from `boards_app/api/views.py` lines 127-146:
`get_object`, then the truthiness check `if not member_id` (400 when the
body has no `member_id` or it is 0/empty), then `User.objects.get`
(404 when no such user), then `board.members.add(member)` — a Django m2m
`add`, which is a no-op when the user is already a member. -/
def addMember (st : KState) (u bid : Nat) (memberId : Option Nat) :
    Except Err KState :=
  match boardGetObject st u bid with
  | .error e => .error e
  | .ok b =>
    match memberId with
    | none => .error .validationFailed
    | some m =>
      if m == 0 then .error .validationFailed
      else if st.users.contains m then
        .ok (updateBoardIn st
          { b with memberIds :=
              if b.memberIds.contains m then b.memberIds
              else b.memberIds ++ [m] })
      else .error .notFound

/-- `BoardViewSet.remove_member` from `boards_app/api/views.py` lines
148-165: `get_object`, the `if not member_id` truthiness check (400),
`User.objects.get` (404), then the guard `if member == board.owner`
returning the distinct 400 `Cannot remove board owner`, and otherwise
`board.members.remove(member)`. -/
def removeMember (st : KState) (u bid : Nat) (memberId : Option Nat) :
    Except Err KState :=
  match boardGetObject st u bid with
  | .error e => .error e
  | .ok b =>
    match memberId with
    | none => .error .validationFailed
    | some m =>
      if m == 0 then .error .validationFailed
      else if st.users.contains m then
        if m == b.ownerId then .error .invalidOperation
        else .ok (updateBoardIn st
          { b with memberIds := b.memberIds.filter (fun x => !(x == m)) })
      else .error .notFound

/-- `BoardViewSet` destroy (DRF ModelViewSet default): `get_object`
(existence then permission via `IsBoardOwnerOrMember`), then
`instance.delete()`, which cascades to the tasks of the board and to the
comments of those tasks (`on_delete=models.CASCADE` on `Task.board` and
`Comment.task`). -/
def boardDestroy (st : KState) (u bid : Nat) : Except Err KState :=
  match boardGetObject st u bid with
  | .error e => .error e
  | .ok b =>
    let deadTasks := (st.tasks.filter (fun t => t.boardId == b.id)).map (·.id)
    .ok { st with
      boards := st.boards.filter (fun x => !(x.id == b.id)),
      tasks := st.tasks.filter (fun t => !(t.boardId == b.id)),
      comments := st.comments.filter (fun c => !(deadTasks.contains c.taskId)) }

/-- The state an HTTP request leaves behind: the new state on success, the
unchanged prior state when the request failed (Django rolls nothing in on
an error response raised before `save`). -/
def stateAfter (st : KState) (r : Except Err KState) : KState :=
  match r with
  | .ok st' => st'
  | .error _ => st

/-- The member list of the board with id `bid`, when it exists. -/
def boardMembersIn (st : KState) (bid : Nat) : Option (List Nat) :=
  (findBoard st bid).map (·.memberIds)

/-- The title of the board with id `bid`, when it exists. -/
def boardTitleIn (st : KState) (bid : Nat) : Option String :=
  (findBoard st bid).map (·.title)

/-- Body of a task-creation request as validated by `TaskSerializer`:
`board` and `title` are required, `status`/`priority` fall back to the
model defaults `to-do`/`medium` when omitted, and
`assignee_id`/`reviewer_id` are optional and nullable. -/
structure TaskCreateData where
  board : Nat
  title : String
  status : Option String
  priority : Option String
  assigneeId : Option Nat
  reviewerId : Option Nat
  deriving DecidableEq, Repr

/-- `TaskSerializer.create` from `boards_app/api/serializers.py` lines
181-208: pop the board id, fetch the board (`NotFound` when absent),
raise PermissionDenied unless
`board.owner == user or user in board.members.all()`, then
`Task.objects.create(...)` with model defaults for omitted
status/priority. Returns the new store and the created task. -/
def taskCreate (st : KState) (u : Nat) (d : TaskCreateData) :
    Except Err (KState × Task) :=
  match findBoard st d.board with
  | none => .error .notFound
  | some b =>
    if ownerOrMember u b then
      let t : Task :=
        { id := st.nextTaskId, boardId := b.id, title := d.title,
          status := d.status.getD "to-do",
          priority := d.priority.getD "medium",
          assigneeId := d.assigneeId, reviewerId := d.reviewerId }
      .ok ({ st with
             tasks := st.tasks ++ [t],
             nextTaskId := st.nextTaskId + 1 }, t)
    else .error .notAuthorized

/-- `TaskViewSet.get_object` from `boards_app/api/views.py` lines 180-196:
fetch the task with its board (`NotFound` when absent), then
`check_object_permissions` runs `IsTaskBoardMember.has_object_permission`
(`boards_app/api/permissions.py` lines 50-53): owner-or-member of the
parent board, else PermissionDenied. The parent board always exists in
the database (non-null foreign key); a dangling `boardId` is mapped to
`notFound` as the closest defensive reading. -/
def taskGetObject (st : KState) (u tid : Nat) : Except Err Task :=
  match findTask st tid with
  | none => .error .notFound
  | some t =>
    match findBoard st t.boardId with
    | none => .error .notFound
    | some b => if ownerOrMember u b then .ok t else .error .notAuthorized

/-- Replace the stored task carrying the id of `t` by `t`. -/
def updateTaskIn (st : KState) (t : Task) : KState :=
  { st with tasks := st.tasks.map (fun x => if x.id == t.id then t else x) }

/-- A task-update request body as seen by `TaskSerializer` on update: every
declared writable field may be present or absent (`partial=True`), and
for the nullable `assignee_id`/`reviewer_id` a present field may carry
`null` (hence `Option (Option Nat)`). `board` is a declared writable
`IntegerField`, so a request may supply it. -/
structure TaskPatch where
  board : Option Nat
  title : Option String
  status : Option String
  priority : Option String
  assigneeId : Option (Option Nat)
  reviewerId : Option (Option Nat)
  deriving DecidableEq, Repr

/-- `TaskViewSet.update` (`boards_app/api/views.py` lines 203-204 deferring
to the DRF default) combined with `TaskSerializer`: `get_object`
(existence then board-membership permission), validation, then — since
`TaskSerializer` overrides only `create` — DRF ModelSerializer.update,
which does `setattr(instance, attr, value)` per validated field and then
`instance.save()`. When the request supplies `board`, the validated value
is a plain integer and the assignment to the `Task.board` foreign-key
descriptor raises ValueError before `save()` is reached, so nothing is
persisted; otherwise the scalar fields are updated and the board of the
task is untouched. -/
def taskUpdate (st : KState) (u tid : Nat) (p : TaskPatch) :
    Except Err KState :=
  match taskGetObject st u tid with
  | .error e => .error e
  | .ok t =>
    match p.board with
    | some _ => .error .valueError
    | none =>
      .ok (updateTaskIn st
        { t with
          title := p.title.getD t.title,
          status := p.status.getD t.status,
          priority := p.priority.getD t.priority,
          assigneeId := p.assigneeId.getD t.assigneeId,
          reviewerId := p.reviewerId.getD t.reviewerId })

/-- The board id of the task with id `tid`, when the task exists. -/
def taskBoardIdIn (st : KState) (tid : Nat) : Option Nat :=
  (findTask st tid).map (·.boardId)

/-- A comment-creation request body: `CommentSerializer` declares `content`
as the only writable field; `author` is read-only
(`read_only_fields = [..., 'author']`), so an author value supplied by
the caller is carried here only to show it is dropped by validation. -/
structure CommentData where
  content : Option String
  author : Option String
  deriving DecidableEq, Repr

/-- `CommentSerializer` validation: `content` is a required TextField-backed
CharField (no `allow_blank`), so a missing or empty `content` fails with
400; the read-only `author` field is discarded and never enters
`validated_data`. -/
def commentValidate (d : CommentData) : Except Err String :=
  match d.content with
  | none => .error .validationFailed
  | some c => if c.isEmpty then .error .validationFailed else .ok c

/-- The POST branch of `TaskViewSet.comments` from
`boards_app/api/views.py` lines 220-240: `get_object` on the task
(existence then board-membership permission), `CommentSerializer`
validation, then `serializer.save(task=task, author=request.user)` — the
author column is always the authenticated requester. `created_at` is
`auto_now_add`, modelled by the clock of the store. -/
def commentsPost (st : KState) (u tid : Nat) (d : CommentData) :
    Except Err (KState × Comment) :=
  match taskGetObject st u tid with
  | .error e => .error e
  | .ok t =>
    match commentValidate d with
    | .error e => .error e
    | .ok c =>
      let cm : Comment :=
        { id := st.nextCommentId, taskId := t.id, authorId := u,
          content := c, createdAt := st.now }
      .ok ({ st with
             comments := st.comments ++ [cm],
             nextCommentId := st.nextCommentId + 1 }, cm)

/-- Insert a comment into a list that is sorted by descending
`created_at`, keeping it sorted. -/
def insertByCreatedDesc (c : Comment) : List Comment → List Comment
  | [] => [c]
  | x :: xs =>
    if x.createdAt ≤ c.createdAt then c :: x :: xs
    else x :: insertByCreatedDesc c xs

/-- `Comment.Meta.ordering = ['-created_at']` from `boards_app/models.py`
lines 149-150: every queryset over comments is returned sorted by
descending creation timestamp. -/
def sortByCreatedDesc : List Comment → List Comment
  | [] => []
  | c :: cs => insertByCreatedDesc c (sortByCreatedDesc cs)

/-- The GET branch of `TaskViewSet.comments` from
`boards_app/api/views.py` lines 220-233: `get_object` on the task, then
`task.comments.all()`, which carries the default model ordering
(descending `created_at`). -/
def commentsGet (st : KState) (u tid : Nat) : Except Err (List Comment) :=
  match taskGetObject st u tid with
  | .error e => .error e
  | .ok t =>
    .ok (sortByCreatedDesc (st.comments.filter (fun c => c.taskId == t.id)))

/-- The name `request` inside `CommentViewSet.perform_create` resolves to
the module imported at the top of `boards_app/api/views.py` line 7
(`from urllib import request`), not to the HTTP request: the method
signature binds no `request` parameter. The module `urllib.request` has
no attribute `user`, so the attribute lookup `request.user` yields
nothing — modelled as `none`. -/
def urllibRequestUser : Option Nat := none

/-- `CommentViewSet.perform_create` from `boards_app/api/views.py` lines
315-328: fetch the task (`NotFound` when absent), read `task.board`,
then evaluate `board.owner != request.user and ...` — where
`request.user` is an attribute lookup on the `urllib.request` module,
raising AttributeError. The branches below the lookup mirror the dead
remainder of the method (`PermissionDenied`, then
`serializer.save(author=self.request.user, task_id=task_id)`). -/
def commentPerformCreate (st : KState) (u tid : Nat) (d : CommentData) :
    Except Err (KState × Comment) :=
  match findTask st tid with
  | none => .error .notFound
  | some t =>
    match findBoard st t.boardId with
    | none => .error .notFound
    | some b =>
      match urllibRequestUser with
      | none => .error .attributeError
      | some ru =>
        if ownerOrMember ru b then
          match commentValidate d with
          | .error e => .error e
          | .ok c =>
            let cm : Comment :=
              { id := st.nextCommentId, taskId := t.id, authorId := u,
                content := c, createdAt := st.now }
            .ok ({ st with
                   comments := st.comments ++ [cm],
                   nextCommentId := st.nextCommentId + 1 }, cm)
        else .error .notAuthorized

/-- A small concrete store used by the closed theorems: users 1, 2, 3;
board 1 owned by user 1 with members [1, 2]; task 1 on board 1; two
comments on task 1 with increasing timestamps. User 3 is registered but
is neither owner nor member of board 1. -/
def demoState : KState :=
  { users := [1, 2, 3],
    boards := [{ id := 1, title := "Sprint 1", ownerId := 1,
                 memberIds := [1, 2] }],
    tasks := [{ id := 1, boardId := 1, title := "Task 1",
                status := "to-do", priority := "medium",
                assigneeId := none, reviewerId := none }],
    comments := [{ id := 1, taskId := 1, authorId := 1,
                   content := "first", createdAt := 5 },
                 { id := 2, taskId := 1, authorId := 2,
                   content := "second", createdAt := 9 }],
    nextTaskId := 2, nextCommentId := 3, now := 12 }

/-- `demoState` after user 3 has been added to the members of board 1. -/
def demoStateWithThree : KState :=
  { demoState with
    boards := [{ id := 1, title := "Sprint 1", ownerId := 1,
                 memberIds := [1, 2, 3] }] }

/-- Replacing elements without changing what a predicate sees commutes
with `find?`. -/
theorem find?_map_replace {α : Type} (l : List α) (f : α → α) (p : α → Bool)
    (hp : ∀ x, p (f x) = p x) :
    (l.map f).find? p = (l.find? p).map f := by
  rw [List.find?_map]
  have h : (p ∘ f) = p := funext hp
  rw [h]

/-- The board updater replaces only the board with the matching id and
never changes ids, so id-based search is unaffected. -/
theorem replaceBoard_id_pred (b : Board) (bid : Nat) :
    ∀ x : Board, ((if x.id == b.id then b else x).id == bid) = (x.id == bid) := by
  intro x
  cases hx : x.id == b.id
  · simp [hx]
  · simp [hx, eq_of_beq hx]

/-- Searching for a board id after `updateBoardIn` finds the replacement. -/
theorem findBoard_updateBoardIn (st : KState) (b b0 : Board) (bid : Nat)
    (hfind : findBoard st bid = some b0) (hid : b.id = b0.id) :
    findBoard (updateBoardIn st b) bid = some b := by
  unfold findBoard updateBoardIn
  rw [find?_map_replace _ _ _ (replaceBoard_id_pred b bid)]
  unfold findBoard at hfind
  rw [hfind]
  simp [hid]

/-- The task updater replaces only the task with the matching id and never
changes ids, so id-based search is unaffected. -/
theorem replaceTask_id_pred (t : Task) (tid : Nat) :
    ∀ x : Task, ((if x.id == t.id then t else x).id == tid) = (x.id == tid) := by
  intro x
  cases hx : x.id == t.id
  · simp [hx]
  · simp [hx, eq_of_beq hx]

/-- A board returned by `boardGetObject` is the stored board: the lookup
succeeded and the permission check passed. -/
theorem boardGetObject_ok (st : KState) (u bid : Nat) (b : Board)
    (h : boardGetObject st u bid = .ok b) :
    findBoard st bid = some b ∧ ownerOrMember u b = true := by
  unfold boardGetObject at h
  cases hf : findBoard st bid with
  | none => simp [hf] at h
  | some b1 =>
    simp only [hf] at h
    cases hperm : ownerOrMember u b1 with
    | false => simp [hperm] at h
    | true =>
      simp only [hperm, if_true] at h
      cases h
      exact ⟨rfl, hperm⟩

/-- A task returned by `taskGetObject` is the stored task found by id. -/
theorem taskGetObject_ok (st : KState) (u tid : Nat) (t : Task)
    (h : taskGetObject st u tid = .ok t) :
    findTask st tid = some t := by
  unfold taskGetObject at h
  cases hf : findTask st tid with
  | none => simp [hf] at h
  | some t1 =>
    simp only [hf] at h
    cases hb : findBoard st t1.boardId with
    | none => simp [hb] at h
    | some b =>
      simp only [hb] at h
      cases hperm : ownerOrMember u b with
      | false => simp [hperm] at h
      | true =>
        simp only [hperm, if_true] at h
        cases h
        rfl

/-- Searching for a task id after `updateTaskIn` finds the replacement. -/
theorem findTask_updateTaskIn (st : KState) (t t0 : Task) (tid : Nat)
    (hfind : findTask st tid = some t0) (hid : t.id = t0.id) :
    findTask (updateTaskIn st t) tid = some t := by
  unfold findTask updateTaskIn
  rw [find?_map_replace _ _ _ (replaceTask_id_pred t tid)]
  unfold findTask at hfind
  rw [hfind]
  simp [hid]

/-- Claim C3: for every identity and every board id, `get` on a nonexistent
id fails with NotFound — independently of the identity, so the existence
check is evaluated before the authorization check — while `get` on an
existing board whose owner/member set does not include the identity
fails with NotAuthorized. -/
theorem boardGet_existence_then_auth (st : KState) (u bid : Nat) :
    (findBoard st bid = none → boardGetObject st u bid = .error .notFound) ∧
    (∀ b, findBoard st bid = some b → ownerOrMember u b = false →
      boardGetObject st u bid = .error .notAuthorized) := by
  constructor
  · intro h
    simp [boardGetObject, h]
  · intro b hb hperm
    simp [boardGetObject, hb, hperm]

/-- Witness for claim C3 on the concrete store: user 3 is registered but
neither owner nor member of board 1, and board 99 does not exist. -/
theorem boardGet_existence_then_auth_witness :
    boardGetObject demoState 3 1 = .error .notAuthorized ∧
    boardGetObject demoState 3 99 = .error .notFound :=
  ⟨(boardGet_existence_then_auth demoState 3 1).2
      { id := 1, title := "Sprint 1", ownerId := 1, memberIds := [1, 2] }
      (by decide) (by decide),
   (boardGet_existence_then_auth demoState 3 99).1 (by decide)⟩

/-- Claim C1 counterexample: user 2 is a member but not the owner of
board 1 in the concrete store, yet a title edit through the board update
endpoint succeeds and changes the stored title instead of failing with
NotAuthorized — `BoardViewSet` installs `IsBoardOwnerOrMember` for writes
as well as reads, and the owner-only `IsBoardOwner` class is never
referenced by a view. -/
theorem boardWrite_member_not_owner_succeeds :
    (findBoard demoState 1).map (·.ownerId) = some 1 ∧
    boardMembersIn demoState 1 = some [1, 2] ∧
    boardPartialUpdate demoState 2 1 ⟨some "edited", none⟩ ≠
      .error .notAuthorized ∧
    boardTitleIn (stateAfter demoState
      (boardPartialUpdate demoState 2 1 ⟨some "edited", none⟩)) 1 =
      some "edited" := by decide

/-- Claim C1 (amended): a board write operation (title/membership edit via
partial update, add_member, remove_member, delete) is permitted iff the
identity is the board owner or one of its members: a requester who is
neither always fails with NotAuthorized (no state is produced, so the
board is unchanged), while an owner-or-member requester never receives
NotAuthorized from these operations. -/
theorem boardWrite_permitted_iff_ownerOrMember (st : KState) (u bid : Nat)
    (b : Board) (hb : findBoard st bid = some b) :
    (ownerOrMember u b = false →
      ∀ p m m',
        boardPartialUpdate st u bid p = .error .notAuthorized ∧
        addMember st u bid m = .error .notAuthorized ∧
        removeMember st u bid m' = .error .notAuthorized ∧
        boardDestroy st u bid = .error .notAuthorized) ∧
    (ownerOrMember u b = true →
      ∀ p m m',
        boardPartialUpdate st u bid p ≠ .error .notAuthorized ∧
        addMember st u bid m ≠ .error .notAuthorized ∧
        removeMember st u bid m' ≠ .error .notAuthorized ∧
        boardDestroy st u bid ≠ .error .notAuthorized) := by
  constructor
  · intro hperm p m m'
    have hget : boardGetObject st u bid = .error .notAuthorized := by
      simp [boardGetObject, hb, hperm]
    refine ⟨?_, ?_, ?_, ?_⟩ <;>
      simp [boardPartialUpdate, addMember, removeMember, boardDestroy, hget]
  · intro hperm p m m'
    have hget : boardGetObject st u bid = .ok b := by
      simp [boardGetObject, hb, hperm]
    refine ⟨?_, ?_, ?_, ?_⟩
    · cases hp : p.members with
      | none => simp [boardPartialUpdate, hget, hp]
      | some ms =>
        by_cases hv : ∀ x ∈ ms, x ∈ st.users
        · simp [boardPartialUpdate, hget, hp]
          rw [if_pos hv]
          simp
        · simp [boardPartialUpdate, hget, hp, hv]
    · cases m with
      | none => simp [addMember, hget]
      | some mv =>
        by_cases h0 : mv = 0
        · simp [addMember, hget, h0]
        · by_cases hu : mv ∈ st.users <;>
            simp [addMember, hget, h0, hu]
    · cases m' with
      | none => simp [removeMember, hget]
      | some mv =>
        by_cases h0 : mv = 0
        · simp [removeMember, hget, h0]
        · by_cases hu : mv ∈ st.users
          · by_cases ho : mv = b.ownerId
            · subst ho
              simp [removeMember, hget, h0, hu]
            · simp [removeMember, hget, h0, hu, ho]
          · simp [removeMember, hget, h0, hu]
    · simp [boardDestroy, hget]

/-- Witness for claim C1 (amended) on the concrete store: non-member 3 is
rejected with NotAuthorized when adding a member, while member 2 is not
rejected when deleting the board. -/
theorem boardWrite_permitted_iff_ownerOrMember_witness :
    addMember demoState 3 1 (some 2) = .error .notAuthorized ∧
    boardDestroy demoState 2 1 ≠ .error .notAuthorized :=
  ⟨((boardWrite_permitted_iff_ownerOrMember demoState 3 1
      { id := 1, title := "Sprint 1", ownerId := 1, memberIds := [1, 2] }
      (by decide)).1 (by decide) ⟨none, none⟩ (some 2) none).2.1,
   ((boardWrite_permitted_iff_ownerOrMember demoState 2 1
      { id := 1, title := "Sprint 1", ownerId := 1, memberIds := [1, 2] }
      (by decide)).2 (by decide) ⟨none, none⟩ none none).2.2.2⟩

/-- Claim C2 at the failing input: a PATCH through
`BoardViewSet.partial_update` that supplies `members = [2]` for board 1
(owned by user 1 with members [1, 2]), issued by the owner, succeeds and
stores the member list [2]: the owner is no longer a member. The PATCH
path routes through `BoardUpdateSerializer`, which — unlike
`BoardSerializer.create` and `BoardSerializer.update` — never re-adds
the owner after `members.set(...)`, so the owner-membership invariant
the code maintains everywhere else is broken on this path. -/
theorem boardPartialUpdate_drops_owner_from_members :
    boardPartialUpdate demoState 1 1 ⟨none, some [2]⟩ =
      .ok { demoState with
            boards := [{ id := 1, title := "Sprint 1", ownerId := 1,
                         memberIds := [2] }] } ∧
    (1 : Nat) ∉ [2] := by decide

/-- Claim C4: for every board reachable by an owner-or-member requester
whose owner id is a registered nonzero user id, `remove_member`
targeting the owner fails with the distinct InvalidOperation error, and
the store is unchanged. -/
theorem removeMember_owner_rejected (st : KState) (u bid : Nat) (b : Board)
    (hb : findBoard st bid = some b) (hperm : ownerOrMember u b = true)
    (h0 : b.ownerId ≠ 0) (hu : b.ownerId ∈ st.users) :
    removeMember st u bid (some b.ownerId) = .error .invalidOperation ∧
    stateAfter st (removeMember st u bid (some b.ownerId)) = st := by
  have hget : boardGetObject st u bid = .ok b := by
    simp [boardGetObject, hb, hperm]
  have h : removeMember st u bid (some b.ownerId) = .error .invalidOperation := by
    unfold removeMember
    rw [hget]
    simp [h0, hu]
  exact ⟨h, by rw [h]; rfl⟩

/-- Witness for claim C4 on the concrete store: member 2 asking to remove
owner 1 from board 1 receives InvalidOperation and the store is
untouched. -/
theorem removeMember_owner_rejected_witness :
    removeMember demoState 2 1 (some 1) = .error .invalidOperation ∧
    stateAfter demoState (removeMember demoState 2 1 (some 1)) = demoState :=
  removeMember_owner_rejected demoState 2 1
    { id := 1, title := "Sprint 1", ownerId := 1, memberIds := [1, 2] }
    (by decide) (by decide) (by decide) (by decide)

/-- Claim C5: a task-create request against a nonexistent board id fails
with NotFound (before any authorization check — the answer does not
depend on the identity), and against an existing board it succeeds iff
the requester is the owner or a member of that board, failing with
NotAuthorized otherwise. -/
theorem taskCreate_existence_then_auth (st : KState) (u : Nat)
    (d : TaskCreateData) :
    (findBoard st d.board = none → taskCreate st u d = .error .notFound) ∧
    (∀ b, findBoard st d.board = some b →
      (ownerOrMember u b = true → ∃ r, taskCreate st u d = .ok r) ∧
      (ownerOrMember u b = false →
        taskCreate st u d = .error .notAuthorized)) := by
  constructor
  · intro h
    simp [taskCreate, h]
  · intro b hb
    constructor
    · intro hperm
      simp [taskCreate, hb, hperm]
    · intro hperm
      simp [taskCreate, hb, hperm]

/-- Witness for claim C5 on the concrete store: board 99 does not exist,
and user 3 is neither owner nor member of board 1 while user 2 is. -/
theorem taskCreate_existence_then_auth_witness :
    taskCreate demoState 3 ⟨99, "t", none, none, none, none⟩ =
      .error .notFound ∧
    taskCreate demoState 3 ⟨1, "t", none, none, none, none⟩ =
      .error .notAuthorized ∧
    (∃ r, taskCreate demoState 2 ⟨1, "t", none, none, none, none⟩ = .ok r) :=
  ⟨(taskCreate_existence_then_auth demoState 3
      ⟨99, "t", none, none, none, none⟩).1 (by decide),
   ((taskCreate_existence_then_auth demoState 3
      ⟨1, "t", none, none, none, none⟩).2
      { id := 1, title := "Sprint 1", ownerId := 1, memberIds := [1, 2] }
      (by decide)).2 (by decide),
   ((taskCreate_existence_then_auth demoState 2
      ⟨1, "t", none, none, none, none⟩).2
      { id := 1, title := "Sprint 1", ownerId := 1, memberIds := [1, 2] }
      (by decide)).1 (by decide)⟩

/-- Claim C6: a task update never changes the board the task belongs to,
whatever board value the request supplies: when the request carries a
`board` field the assignment to the foreign-key descriptor raises before
anything is saved, and when it does not, the updated task keeps its
board id — in every case the stored board id of the task is unchanged. -/
theorem taskUpdate_preserves_boardId (st : KState) (u tid : Nat)
    (p : TaskPatch) :
    taskBoardIdIn (stateAfter st (taskUpdate st u tid p)) tid =
      taskBoardIdIn st tid := by
  cases hg : taskGetObject st u tid with
  | error e =>
    have hres : taskUpdate st u tid p = .error e := by simp [taskUpdate, hg]
    rw [hres]
    rfl
  | ok t =>
    cases hpb : p.board with
    | some v =>
      have hres : taskUpdate st u tid p = .error .valueError := by
        simp [taskUpdate, hg, hpb]
      rw [hres]
      rfl
    | none =>
      have hres : taskUpdate st u tid p = .ok (updateTaskIn st
          { t with
            title := p.title.getD t.title,
            status := p.status.getD t.status,
            priority := p.priority.getD t.priority,
            assigneeId := p.assigneeId.getD t.assigneeId,
            reviewerId := p.reviewerId.getD t.reviewerId }) := by
        simp [taskUpdate, hg, hpb]
      rw [hres]
      have hfind : findTask st tid = some t := taskGetObject_ok st u tid t hg
      have h1 := findTask_updateTaskIn st
        { t with
          title := p.title.getD t.title,
          status := p.status.getD t.status,
          priority := p.priority.getD t.priority,
          assigneeId := p.assigneeId.getD t.assigneeId,
          reviewerId := p.reviewerId.getD t.reviewerId } t tid hfind rfl
      unfold taskBoardIdIn stateAfter
      rw [h1, hfind]
      rfl

/-- Claim C7: the author stored for a comment created through the comments
action is always the requesting identity: the response is identical for
any two author values the caller smuggles into the body (the serializer
field is read-only and dropped during validation), and on success the
stored author id is the requester id. -/
theorem commentsPost_author_forced (st : KState) (u tid : Nat)
    (c a1 a2 : Option String) :
    commentsPost st u tid ⟨c, a1⟩ = commentsPost st u tid ⟨c, a2⟩ ∧
    (∀ st' cm, commentsPost st u tid ⟨c, a1⟩ = .ok (st', cm) →
      cm.authorId = u) := by
  constructor
  · rfl
  · intro st' cm h
    unfold commentsPost at h
    cases hg : taskGetObject st u tid with
    | error e => simp [hg] at h
    | ok t =>
      simp only [hg] at h
      cases hv : commentValidate ⟨c, a1⟩ with
      | error e => simp [hv] at h
      | ok s =>
        simp only [hv] at h
        cases h
        rfl

/-- Witness for claim C7 on the concrete store: member 2 posting a comment
with a smuggled author field gets the same response as without it, and
the stored author is user 2. -/
theorem commentsPost_author_forced_witness :
    commentsPost demoState 2 1 ⟨some "LGTM", some "someone else"⟩ =
      commentsPost demoState 2 1 ⟨some "LGTM", none⟩ ∧
    ({ id := 3, taskId := 1, authorId := 2, content := "LGTM",
       createdAt := 12 } : Comment).authorId = 2 :=
  ⟨(commentsPost_author_forced demoState 2 1
      (some "LGTM") (some "someone else") none).1,
   (commentsPost_author_forced demoState 2 1
      (some "LGTM") (some "someone else") none).2
     { demoState with
       comments := demoState.comments ++
         [{ id := 3, taskId := 1, authorId := 2, content := "LGTM",
            createdAt := 12 }],
       nextCommentId := 4 }
     { id := 3, taskId := 1, authorId := 2, content := "LGTM",
       createdAt := 12 }
     (by decide)⟩

/-- Claim C9: whenever the task id resolves to an existing task (with its
stored board), `CommentViewSet.perform_create` fails with the
AttributeError raised by `request.user` — `request` being the imported
`urllib.request` module — before anything is persisted, so no comment is
ever created through this code path. -/
theorem commentPerformCreate_always_errors (st : KState) (u tid : Nat)
    (d : CommentData) (t : Task) (b : Board)
    (htask : findTask st tid = some t)
    (hboard : findBoard st t.boardId = some b) :
    commentPerformCreate st u tid d = .error .attributeError := by
  simp [commentPerformCreate, htask, hboard, urllibRequestUser]

/-- Witness for claim C9 on the concrete store: task 1 exists on board 1,
and comment creation through `CommentViewSet.perform_create` fails with
AttributeError. -/
theorem commentPerformCreate_always_errors_witness :
    commentPerformCreate demoState 2 1 ⟨some "hello", none⟩ =
      .error .attributeError :=
  commentPerformCreate_always_errors demoState 2 1 ⟨some "hello", none⟩
    { id := 1, boardId := 1, title := "Task 1", status := "to-do",
      priority := "medium", assigneeId := none, reviewerId := none }
    { id := 1, title := "Sprint 1", ownerId := 1, memberIds := [1, 2] }
    (by decide) (by decide)

/-- Every element of the descending insertion is the inserted comment or
an element of the original list. -/
theorem mem_insertByCreatedDesc (c x : Comment) (l : List Comment)
    (hx : x ∈ insertByCreatedDesc c l) : x = c ∨ x ∈ l := by
  induction l with
  | nil =>
    simp [insertByCreatedDesc] at hx
    exact Or.inl hx
  | cons a l ih =>
    unfold insertByCreatedDesc at hx
    by_cases h : a.createdAt ≤ c.createdAt
    · rw [if_pos h] at hx
      rcases List.mem_cons.mp hx with h1 | h1
      · exact Or.inl h1
      · exact Or.inr h1
    · rw [if_neg h] at hx
      rcases List.mem_cons.mp hx with h1 | h1
      · exact Or.inr (List.mem_cons.mpr (Or.inl h1))
      · rcases ih h1 with h2 | h2
        · exact Or.inl h2
        · exact Or.inr (List.mem_cons.mpr (Or.inr h2))

/-- Inserting into a list sorted by non-increasing creation timestamps
keeps it sorted. -/
theorem pairwise_insertByCreatedDesc (c : Comment) (l : List Comment)
    (hl : l.Pairwise (fun a b => b.createdAt ≤ a.createdAt)) :
    (insertByCreatedDesc c l).Pairwise
      (fun a b => b.createdAt ≤ a.createdAt) := by
  induction l with
  | nil => simp [insertByCreatedDesc]
  | cons a l ih =>
    rw [List.pairwise_cons] at hl
    obtain ⟨ha, hl'⟩ := hl
    unfold insertByCreatedDesc
    by_cases h : a.createdAt ≤ c.createdAt
    · rw [if_pos h]
      rw [List.pairwise_cons]
      refine ⟨?_, ?_⟩
      · intro y hy
        rcases List.mem_cons.mp hy with h1 | h1
        · subst h1
          exact h
        · exact le_trans (ha y h1) h
      · rw [List.pairwise_cons]
        exact ⟨ha, hl'⟩
    · rw [if_neg h]
      rw [List.pairwise_cons]
      refine ⟨?_, ?_⟩
      · intro y hy
        rcases mem_insertByCreatedDesc c y l hy with h1 | h1
        · subst h1
          omega
        · exact ha y h1
      · exact ih hl'

/-- The comment sort always produces a list sorted by non-increasing
creation timestamps. -/
theorem pairwise_sortByCreatedDesc (l : List Comment) :
    (sortByCreatedDesc l).Pairwise
      (fun a b => b.createdAt ≤ a.createdAt) := by
  induction l with
  | nil => simp [sortByCreatedDesc]
  | cons c cs ih => exact pairwise_insertByCreatedDesc c (sortByCreatedDesc cs) ih

/-- Claim C8: listing the comments of a task returns them in non-increasing
`created_at` order (newest first), the ordering imposed by the comment
model on every queryset. -/
theorem commentsGet_sorted_desc (st : KState) (u tid : Nat)
    (l : List Comment) (h : commentsGet st u tid = .ok l) :
    l.Pairwise (fun a b => b.createdAt ≤ a.createdAt) := by
  unfold commentsGet at h
  cases hg : taskGetObject st u tid with
  | error e => simp [hg] at h
  | ok t =>
    simp only [hg] at h
    cases h
    exact pairwise_sortByCreatedDesc _

/-- Witness for claim C8 on the concrete store: the two comments of task 1
come back newest first. -/
theorem commentsGet_sorted_desc_witness :
    commentsGet demoState 2 1 = .ok
      [{ id := 2, taskId := 1, authorId := 2, content := "second",
         createdAt := 9 },
       { id := 1, taskId := 1, authorId := 1, content := "first",
         createdAt := 5 }] ∧
    ([{ id := 2, taskId := 1, authorId := 2, content := "second",
        createdAt := 9 },
      { id := 1, taskId := 1, authorId := 1, content := "first",
        createdAt := 5 }] : List Comment).Pairwise
      (fun a b => b.createdAt ≤ a.createdAt) :=
  ⟨by decide,
   commentsGet_sorted_desc demoState 2 1
     [{ id := 2, taskId := 1, authorId := 2, content := "second",
        createdAt := 9 },
      { id := 1, taskId := 1, authorId := 1, content := "first",
        createdAt := 5 }] (by decide)⟩

/-- Replacing the board with a given id twice is the same as replacing it
once. -/
theorem map_replace_idem (l : List Board) (b : Board) :
    (l.map (fun x => if x.id == b.id then b else x)).map
        (fun x => if x.id == b.id then b else x) =
      l.map (fun x => if x.id == b.id then b else x) := by
  rw [List.map_map]
  apply List.map_congr_left
  intro x _
  simp only [Function.comp_apply]
  by_cases h : x.id == b.id
  · simp [h]
  · simp [h]

/-- `updateBoardIn` with the same board is idempotent. -/
theorem updateBoardIn_idem (st : KState) (b : Board) :
    updateBoardIn (updateBoardIn st b) b = updateBoardIn st b := by
  unfold updateBoardIn
  congr 1
  exact map_replace_idem st.boards b

/-- Claim C10: add_member is idempotent: when a first add_member call
succeeds, repeating the identical call succeeds and returns the very
same store, and when the added user was already a member, the first call
leaves the member list of the board exactly as it was. -/
theorem addMember_idempotent (st : KState) (u bid m : Nat) (st' : KState)
    (h : addMember st u bid (some m) = .ok st') :
    addMember st' u bid (some m) = .ok st' ∧
    (∀ b0, findBoard st bid = some b0 → b0.memberIds.contains m = true →
      boardMembersIn st' bid = boardMembersIn st bid) := by
  cases hg : boardGetObject st u bid with
  | error e => simp [addMember, hg] at h
  | ok b =>
    obtain ⟨hb, hperm⟩ := boardGetObject_ok st u bid b hg
    by_cases h0 : m = 0
    · simp [addMember, hg, h0] at h
    · by_cases hu : m ∈ st.users
      · by_cases hmem : m ∈ b.memberIds
        · have hres : addMember st u bid (some m) = .ok (updateBoardIn st b) := by
            simp [addMember, hg, h0, hu, hmem]
          rw [hres] at h
          cases h
          have hfb2 : findBoard (updateBoardIn st b) bid = some b :=
            findBoard_updateBoardIn st b b bid hb rfl
          have hgob2 : boardGetObject (updateBoardIn st b) u bid = .ok b := by
            simp [boardGetObject, hfb2, hperm]
          refine ⟨?_, ?_⟩
          · simp [addMember, hgob2, h0, hmem, updateBoardIn_idem]
            exact hu
          · intro b0 hb0 hmem0
            unfold boardMembersIn
            rw [hfb2, hb]
        · have hres : addMember st u bid (some m) =
              .ok (updateBoardIn st { b with memberIds := b.memberIds ++ [m] }) := by
            simp [addMember, hg, h0, hu, hmem]
          rw [hres] at h
          cases h
          have hfb2 : findBoard
              (updateBoardIn st { b with memberIds := b.memberIds ++ [m] }) bid =
              some { b with memberIds := b.memberIds ++ [m] } :=
            findBoard_updateBoardIn st
              { b with memberIds := b.memberIds ++ [m] } b bid hb rfl
          have hperm2 : ownerOrMember u
              { b with memberIds := b.memberIds ++ [m] } = true := by
            simp [ownerOrMember] at hperm ⊢
            tauto
          have hgob2 : boardGetObject
              (updateBoardIn st { b with memberIds := b.memberIds ++ [m] })
              u bid = .ok { b with memberIds := b.memberIds ++ [m] } := by
            simp only [boardGetObject, hfb2, hperm2, if_true]
          refine ⟨?_, ?_⟩
          · simp [addMember, hgob2, h0, updateBoardIn_idem]
            exact hu
          · intro b0 hb0 hmem0
            rw [hb] at hb0
            cases hb0
            exact absurd (by simpa using hmem0) hmem
      · simp [addMember, hg, h0, hu] at h

/-- Witness for claim C10 on the concrete store: adding user 3 a second
time returns the same store, and re-adding user 2 (already a member)
leaves the member list of board 1 unchanged. -/
theorem addMember_idempotent_witness :
    addMember demoStateWithThree 1 1 (some 3) = .ok demoStateWithThree ∧
    boardMembersIn demoState 1 = boardMembersIn demoState 1 :=
  ⟨(addMember_idempotent demoState 1 1 3 demoStateWithThree (by decide)).1,
   (addMember_idempotent demoState 1 1 2 demoState (by decide)).2
     { id := 1, title := "Sprint 1", ownerId := 1, memberIds := [1, 2] }
     (by decide) (by decide)⟩

end KanMind
